import Mathlib

/-!
Verification development for the thymes2js request-dispatch core.

The definitions below are shallow embeddings of the JavaScript sources:
  - src/lib/actor-registry/actor-registry-cache.js (= src/unnamed/part_003):
    the actor lookup cache;
  - src/lib/endpoint-mapper.js and src/lib/endpoint.js: the URI router;
  - src/unnamed/part_013 (Application / EndpointCall) together with
    src/lib/endpoint-call-response.js: the call pipeline, CORS handling and
    multipart assembly (src/unnamed/part_011 is an earlier draft of the same
    pipeline and is embedded where a claim cites it);
  - src/unnamed/part_005: the Basic authenticator;
  - src/unnamed/part_008, part_009, lib/header-value-handler: header value
    handlers.

JavaScript promises are modelled by identifiers (Nat): issuing an upstream
call allocates a fresh identifier, and the settled/shared future returned by
a lookup is the identifier of the upstream call it came from.  Machine time
(Date.now) is an explicit Int parameter in milliseconds.  A JavaScript Map is
an insertion-ordered association list.  A thrown ReferenceError/TypeError is
an explicit error constructor.
-/

deriving instance DecidableEq for Except

namespace Thymes2

/-! ### Association-list operations mirroring the JavaScript Map -/

/-- Map.get: first binding for the key, if any. -/
def assocFind {α : Type} (l : List (String × α)) (k : String) : Option α :=
  match l with
  | [] => none
  | (k₁, v) :: t => if k₁ = k then some v else assocFind t k

/-- Map.set: update an existing binding in place (preserving insertion
order), or append a new binding at the end. -/
def assocSet {α : Type} (l : List (String × α)) (k : String) (v : α) :
    List (String × α) :=
  match l with
  | [] => [(k, v)]
  | (k₁, v₁) :: t => if k₁ = k then (k₁, v) :: t else (k₁, v₁) :: assocSet t k v

/-- Map.delete: remove the binding for the key. -/
def assocDelete {α : Type} (l : List (String × α)) (k : String) :
    List (String × α) :=
  match l with
  | [] => []
  | (k₁, v₁) :: t => if k₁ = k then t else (k₁, v₁) :: assocDelete t k

/-- Updating a key that is present does not change the number of bindings. -/
theorem length_assocSet_of_find {α : Type} (l : List (String × α)) (k : String)
    (e v : α) (h : assocFind l k = some e) :
    (assocSet l k v).length = l.length := by
  induction l with
  | nil => simp [assocFind] at h
  | cons hd tl ih =>
    by_cases hk : hd.1 = k
    · simp [assocSet, hk]
    · simp only [assocFind, hk, if_false] at h
      simp [assocSet, hk, ih h]

/-! ### Actor lookup cache

Embeds ActorRegistryCache (src/lib/actor-registry/actor-registry-cache.js,
lines 90-188; identical in src/unnamed/part_003, lines 106-204). -/

/-- Configuration of the cache: the constructor arguments maxCached and
cacheTTL (seconds).  Both are Int so the disabled-mode comparisons with zero
are meaningful. -/
structure CacheCfg where
  maxCached : Int
  cacheTTL : Int
deriving DecidableEq, Repr

/-- Constructor line: this._cacheTTLms = cacheTTL * 1000. -/
def CacheCfg.ttlms (c : CacheCfg) : Int := c.cacheTTL * 1000

/-- Constructor line: this._disabled = ((maxCached <= 0) || (cacheTTL <= 0)). -/
def CacheCfg.disabled (c : CacheCfg) : Bool := c.maxCached ≤ 0 || c.cacheTTL ≤ 0

/-- One cached element: resolved flag, timestamp of the last successful
resolution (milliseconds; meaningful only once resolved, 0 stands for the
still-undefined field of a fresh element), and the identifier of the shared
actorPromise. -/
structure CacheEntry where
  resolved : Bool
  timestamp : Int
  promise : Nat
deriving DecidableEq, Repr

/-- The cache Map plus a counter allocating upstream-call identifiers. -/
structure CacheState where
  entries : List (String × CacheEntry)
  nextCallId : Nat
deriving DecidableEq, Repr

/-- Outcome of one synchronous run of ActorRegistryCache.lookup.
ok carries the state after the call, the identifier of the promise returned
to the caller, the identifier of the upstream registry call issued during
this lookup (none when the cached future is shared), and whether the
"ineffective actors cache" warning was logged.  refError models the
ReferenceError thrown by the eviction sweep, which reads the undeclared
variable in the expression (now - v.timestamp) >= his._cacheTTLms the first
time it reaches a resolved element; the state it carries is the cache at the
moment of the throw (nothing was mutated before it). -/
inductive CacheLookupResult where
  | ok (st : CacheState) (promise : Nat) (newCall : Option Nat) (warned : Bool)
  | refError (st : CacheState)
deriving DecidableEq, Repr

/-- State reached after a lookup, whichever way it ended. -/
def CacheLookupResult.state : CacheLookupResult → CacheState
  | .ok st _ _ _ => st
  | .refError st => st

/-- ActorRegistryCache.lookup, lines 112-188 of
src/lib/actor-registry/actor-registry-cache.js, for one key and one instant.

Branches, in source order: disabled mode passes straight through to
ActorRegistry.lookup (a fresh upstream call).  For a cached element, stale is
resolved && (now - timestamp) >= ttlms; a stale element is refreshed by a new
upstream call stored in the same slot, a fresh one's shared promise is
returned as is.  For a missing key at capacity, the reclamation sweep
evaluates v.resolved && ((now - v.timestamp) >= his._cacheTTLms) on each
element: his is not a declared name, so the first resolved element throws a
ReferenceError (no element is ever deleted before the throw); if every
element is unresolved the sweep finds nothing, oldestKey stays undefined, the
"ineffective actors cache" warning is logged and the call bypasses the cache.
Below capacity the new element is inserted and an upstream call issued. -/
def cacheLookup (cfg : CacheCfg) (st : CacheState) (k : String) (now : Int) :
    CacheLookupResult :=
  if cfg.disabled then
    .ok ⟨st.entries, st.nextCallId + 1⟩ st.nextCallId (some st.nextCallId) false
  else
    match assocFind st.entries k with
    | some e =>
      if e.resolved = true ∧ now - e.timestamp ≥ cfg.ttlms then
        .ok ⟨assocSet st.entries k ⟨false, e.timestamp, st.nextCallId⟩,
             st.nextCallId + 1⟩
          st.nextCallId (some st.nextCallId) false
      else
        .ok st e.promise none false
    | none =>
      if (st.entries.length : Int) ≥ cfg.maxCached then
        if st.entries.any (fun kv => kv.2.resolved) then
          .refError st
        else
          .ok ⟨st.entries, st.nextCallId + 1⟩ st.nextCallId
            (some st.nextCallId) true
      else
        .ok ⟨st.entries ++ [(k, ⟨false, 0, st.nextCallId⟩)], st.nextCallId + 1⟩
          st.nextCallId (some st.nextCallId) false

/-- Success continuation of the upstream call (lines 174-178): the shared
element is marked resolved and stamped with the resolution instant. -/
def cacheResolve (st : CacheState) (k : String) (now : Int) : CacheState :=
  match assocFind st.entries k with
  | some e => ⟨assocSet st.entries k ⟨true, now, e.promise⟩, st.nextCallId⟩
  | none => st

/-- C2: for every cache key there is at most one upstream lookup in flight:
a lookup that finds an unresolved (in-flight) element returns that element's
shared future unchanged and issues no upstream call, and a lookup that finds
a resolved element whose TTL has expired issues exactly one new upstream
call, re-using the slot for the new in-flight future. -/
theorem cacheSingleFlight_c2 (cfg : CacheCfg) (st : CacheState) (k : String)
    (now : Int) (hen : cfg.disabled = false) :
    (∀ e : CacheEntry, assocFind st.entries k = some e → e.resolved = false →
      cacheLookup cfg st k now = .ok st e.promise none false)
    ∧ (∀ e : CacheEntry, assocFind st.entries k = some e → e.resolved = true →
      now - e.timestamp ≥ cfg.ttlms →
      cacheLookup cfg st k now =
        .ok ⟨assocSet st.entries k ⟨false, e.timestamp, st.nextCallId⟩,
             st.nextCallId + 1⟩
          st.nextCallId (some st.nextCallId) false) := by
  constructor
  · intro e hfind hunres
    simp [cacheLookup, hen, hfind, hunres]
  · intro e hfind hres hstale
    simp [cacheLookup, hen, hfind, hres, hstale]

/-- Concrete run of cacheSingleFlight_c2: one key "a", first lookup inserts
and issues upstream call 0; a second lookup before resolution shares promise
0 and issues nothing; after resolution at t=1000 and TTL expiry at t=7000 a
third lookup issues exactly the one new upstream call 1. -/
theorem cacheSingleFlight_c2_witness :
    (cacheLookup ⟨10, 5⟩ ⟨[("a", ⟨false, 0, 0⟩)], 1⟩ "a" 500 =
      .ok ⟨[("a", ⟨false, 0, 0⟩)], 1⟩ 0 none false)
    ∧ (cacheLookup ⟨10, 5⟩ (cacheResolve ⟨[("a", ⟨false, 0, 0⟩)], 1⟩ "a" 1000)
        "a" 7000 =
      .ok ⟨[("a", ⟨false, 1000, 1⟩)], 2⟩ 1 (some 1) false) := by
  constructor
  · exact (cacheSingleFlight_c2 ⟨10, 5⟩ ⟨[("a", ⟨false, 0, 0⟩)], 1⟩ "a" 500
      (by decide)).1 ⟨false, 0, 0⟩ (by decide) (by decide)
  · exact (cacheSingleFlight_c2 ⟨10, 5⟩ ⟨[("a", ⟨true, 1000, 0⟩)], 1⟩ "a" 7000
      (by decide)).2 ⟨true, 1000, 0⟩ (by decide) (by decide) (by decide)

/-- C5 (code evaluated at the failing input): with maxCached = 1, TTL = 5 s
and the cache holding the single element "a" resolved at t=0, a lookup for
the new key "b" at t=10000 ms reaches the reclamation sweep with "a" both
resolved and stale — the exact batch-reclamation situation of the claim —
and throws a ReferenceError (the sweep reads his._cacheTTLms, and his is
undeclared) instead of deleting "a" and admitting "b". -/
theorem cacheSweep_c5_eval :
    cacheLookup ⟨1, 5⟩ ⟨[("a", ⟨true, 0, 0⟩)], 1⟩ "b" 10000 =
      .refError ⟨[("a", ⟨true, 0, 0⟩)], 1⟩ := by decide

/-- C6: the cache never exceeds maxCached elements after a lookup, and when
it is at capacity with every slot an in-flight unresolved element, a lookup
for a new key inserts nothing, logs the "ineffective actors cache" warning,
issues one direct upstream registry call and returns that call's future. -/
theorem cacheCapacity_c6 (cfg : CacheCfg) (st : CacheState) (k : String)
    (now : Int) (hinv : (st.entries.length : Int) ≤ cfg.maxCached) :
    ((cacheLookup cfg st k now).state.entries.length : Int) ≤ cfg.maxCached
    ∧ (cfg.disabled = false → assocFind st.entries k = none →
      (st.entries.length : Int) ≥ cfg.maxCached →
      (∀ kv ∈ st.entries, kv.2.resolved = false) →
      cacheLookup cfg st k now =
        .ok ⟨st.entries, st.nextCallId + 1⟩ st.nextCallId
          (some st.nextCallId) true) := by
  constructor
  · unfold cacheLookup
    split
    · simpa [CacheLookupResult.state] using hinv
    · split
      · rename_i e hfind
        split
        · simp only [CacheLookupResult.state]
          rw [length_assocSet_of_find st.entries k e _ hfind]
          exact hinv
        · simpa [CacheLookupResult.state] using hinv
      · split
        · split
          · simpa [CacheLookupResult.state] using hinv
          · simpa [CacheLookupResult.state] using hinv
        · rename_i hroom
          push_neg at hroom
          simp only [CacheLookupResult.state, List.length_append,
            List.length_cons, List.length_nil]
          push_cast
          omega
  · intro hen hmiss hfull hallun
    have hany : st.entries.any (fun kv => kv.2.resolved) = false := by
      simp only [List.any_eq_false]
      intro kv hkv
      simp [hallun kv hkv]
    simp [cacheLookup, hen, hmiss, hfull, hany]

/-- Concrete run of cacheCapacity_c6: capacity 2, both slots in-flight
unresolved; the new-key lookup for "c" leaves the cache untouched, warns,
and returns the fresh direct upstream call 2. -/
theorem cacheCapacity_c6_witness :
    ((cacheLookup ⟨2, 5⟩ ⟨[("a", ⟨false, 0, 0⟩), ("b", ⟨false, 0, 1⟩)], 2⟩
        "c" 100).state.entries.length : Int) ≤ 2
    ∧ cacheLookup ⟨2, 5⟩ ⟨[("a", ⟨false, 0, 0⟩), ("b", ⟨false, 0, 1⟩)], 2⟩
        "c" 100 =
      .ok ⟨[("a", ⟨false, 0, 0⟩), ("b", ⟨false, 0, 1⟩)], 3⟩ 2 (some 2) true := by
  have h := cacheCapacity_c6 ⟨2, 5⟩
    ⟨[("a", ⟨false, 0, 0⟩), ("b", ⟨false, 0, 1⟩)], 2⟩ "c" 100 (by decide)
  refine ⟨h.1, h.2 (by decide) (by decide) (by decide) ?_⟩
  decide

/-! ### URI router

Embeds EndpointMapper (src/lib/endpoint-mapper.js) and the numUriParams
accounting of src/lib/endpoint.js.  The JavaScript regular-expression engine
is not re-implemented; instead each endpoint carries the meaning of its
anchored pattern: for which whole strings it matches and which capture-group
values it produces.  Because the master pattern is
^prefix(?:(p₀)|(p₁)|…)$, the enclosing group of the selected branch always
captures exactly the path with the prefix stripped, and the selected branch
is the first one able to match that remainder.  The configured prefix is
taken literally (the source also strips it by plain substring length). -/

/-- JS .length of a string, at the character level. -/
def strLen (s : String) : Nat := s.data.length

/-- Character-list prefix test. -/
def listIsPfx : List Char → List Char → Bool
  | [], _ => true
  | _ :: _, [] => false
  | a :: as, b :: bs => a = b && listIsPfx as bs

/-- Whether the request path starts with the endpoints prefix: the ^prefix
part of the master pattern. -/
def strStartsWith (p s : String) : Bool := listIsPfx p.data s.data

/-- requestUri.substring(n). -/
def strDropN (s : String) (n : Nat) : String := ⟨s.data.drop n⟩

/-- One registered endpoint: numUriParams (the number of capture groups of
its uriPattern, counted once at registration in src/lib/endpoint.js line
23-24), an identifier standing for the handler object, and the semantics of
the anchored pattern: execGroups rest = some gs when the pattern matches the
whole string rest producing capture-group values gs in order (none for a
group that did not participate, e.g. an absent optional trailing group), and
none when the pattern cannot match rest. -/
structure Endpoint where
  numUriParams : Nat
  handler : Nat
  execGroups : String → Option (List (Option String))

/-- Regular-expression well-formedness: a successful exec yields exactly one
value slot per capture group of the pattern. -/
def EndpointWf (e : Endpoint) : Prop :=
  ∀ s gs, e.execGroups s = some gs → gs.length = e.numUriParams

/-- Alternation semantics of the master pattern: the selected branch is the
first endpoint whose pattern matches the whole stripped path, paired with
its capture groups. -/
def findFirstBranch : List Endpoint → String → Option (Nat × List (Option String))
  | [], _ => none
  | e :: tl, rest =>
    match e.execGroups rest with
    | some gs => some (0, gs)
    | none => (findFirstBranch tl rest).map (fun p => (p.1 + 1, p.2))

/-- The sparse _endpointsIndex array built by the constructor (lines 40-46):
each endpoint sits at its patternIndex offset, with none at the positions
reserved for its capture groups.  As in JS, the array ends at the last
assigned index, so the last endpoint's group positions are not part of it. -/
def endpointsIndexList : List Endpoint → List (Option Endpoint)
  | [] => []
  | [e] => [some e]
  | e :: e₂ :: tl =>
    (some e :: List.replicate e.numUriParams none) ++ endpointsIndexList (e₂ :: tl)

/-- Cells 1.. of the combined match array (cell 0 is the whole match):
branch j contributes one cell for its own enclosing group followed by
numUriParams_j cells for its capture groups; the branch picked out by the
selector contributes the whole stripped path and its groups gs, every other
branch contributes absent cells.  A selector beyond the remaining list marks
that the selected branch has already been emitted. -/
def matchTail : List Endpoint → Nat → String → List (Option String) →
    List (Option String)
  | [], _, _, _ => []
  | _ :: tl, 0, rest, gs =>
    (some rest :: gs) ++ matchTail tl (tl.length + 1) rest gs
  | e :: tl, sel + 1, rest, gs =>
    (none :: List.replicate e.numUriParams none) ++ matchTail tl sel rest gs

/-- patternIndex of branch i: one cell plus one cell per capture group for
every earlier branch. -/
def branchOffset : List Endpoint → Nat → Nat
  | _, 0 => 0
  | [], _ + 1 => 0
  | e :: tl, i + 1 => e.numUriParams + 1 + branchOffset tl i

/-- JS truthiness of a combined-match cell: present and non-empty (the empty
string is falsy). -/
def truthy : Option String → Bool
  | some s => s != ""
  | none => false

/-- findIndex over the endpoints index with predicate match[i + 1]: the
first position below the index array's length whose combined-match cell is
truthy; positions beyond the match array read undefined, which is falsy. -/
def findTruthyIndex : Nat → List (Option String) → Option Nat
  | 0, _ => none
  | _ + 1, [] => none
  | b + 1, c :: m =>
    if truthy c then some 0 else (findTruthyIndex b m).map (· + 1)

/-- Result object of EndpointMapper.lookup: the matched endpoint's handler,
the path with the configured prefix stripped, and the slice of the combined
match holding the endpoint's parameter values. -/
structure RouteMatch where
  handler : Nat
  uri : String
  uriParams : List (Option String)
deriving DecidableEq, Repr

/-- noMatch is the null return (the caller maps it to 404); typeError models
the TypeError thrown when the endpoints-index access yields undefined (index
-1, or a hole of the sparse array) and .numUriParams is then read on it. -/
inductive LookupOutcome where
  | noMatch
  | found (m : RouteMatch)
  | typeError
deriving DecidableEq, Repr

/-- EndpointMapper.lookup (lines 62-86) against the master pattern compiled
by the constructor (lines 29-50), with a literal endpoints prefix pfx (""
when X2_ENDPOINTS_PREFIX is unset, which is also falsy in the source, and
then both the pattern prefix and the substring strip are no-ops).  The
master pattern matches when the path starts with the prefix and, for a
non-empty endpoint list, some branch matches the remainder; for an empty
list the alternation (?:) matches exactly the empty remainder.  On a match
the code scans the sparse endpoints index for the first truthy
combined-match cell, reads the index entry there, and slices the match
array at that offset for numUriParams cells. -/
def emLookup (pfx : String) (es : List Endpoint) (requestUri : String) :
    LookupOutcome :=
  if strStartsWith pfx requestUri then
    let rest := strDropN requestUri (strLen pfx)
    if es.isEmpty then
      if rest = "" then .typeError else .noMatch
    else
      match findFirstBranch es rest with
      | none => .noMatch
      | some (sel, gs) =>
        match findTruthyIndex (endpointsIndexList es).length
            (matchTail es sel rest gs) with
        | none => .typeError
        | some pos =>
          match (endpointsIndexList es).getD pos none with
          | none => .typeError
          | some e =>
            .found ⟨e.handler, rest,
              ((matchTail es sel rest gs).drop (pos + 1)).take e.numUriParams⟩
  else .noMatch

/-! #### Helper lemmas for the router -/

theorem strData_append (s t : String) : (s ++ t).data = s.data ++ t.data := rfl

theorem listIsPfx_self_append (p t : List Char) : listIsPfx p (p ++ t) = true := by
  induction p with
  | nil => rfl
  | cons a as ih => simp [listIsPfx, ih]

theorem strStartsWith_self_append (p r : String) :
    strStartsWith p (p ++ r) = true := by
  unfold strStartsWith
  rw [strData_append]
  exact listIsPfx_self_append _ _

theorem strDropN_self_append (p r : String) :
    strDropN (p ++ r) (strLen p) = r := by
  unfold strDropN strLen
  rw [strData_append, List.drop_left]

theorem str_append_empty (p : String) : p ++ "" = p := by
  cases p with
  | mk d => exact congrArg String.mk (List.append_nil d)

theorem findFirstBranch_spec (es : List Endpoint) (rest : String) :
    ∀ sel gs, findFirstBranch es rest = some (sel, gs) →
      ∃ e, es.get? sel = some e ∧ e.execGroups rest = some gs := by
  induction es with
  | nil => intro sel gs h; simp [findFirstBranch] at h
  | cons e₀ tl ih =>
    intro sel gs h
    cases h₀ : e₀.execGroups rest with
    | some gs₀ =>
      simp only [findFirstBranch, h₀, Option.some.injEq, Prod.mk.injEq] at h
      obtain ⟨h₁, h₂⟩ := h
      subst h₁
      subst h₂
      exact ⟨e₀, rfl, h₀⟩
    | none =>
      simp only [findFirstBranch, h₀, Option.map_eq_some'] at h
      obtain ⟨⟨sel₁, gs₁⟩, hp, hq⟩ := h
      simp only [Prod.mk.injEq] at hq
      obtain ⟨hq₁, hq₂⟩ := hq
      subst hq₁
      subst hq₂
      obtain ⟨e, he, hx⟩ := ih sel₁ gs₁ hp
      exact ⟨e, he, hx⟩

theorem findTruthyIndex_append_falsy (pre : List (Option String))
    (hpre : ∀ c ∈ pre, truthy c = false) (b : Nat) (m : List (Option String)) :
    findTruthyIndex (pre.length + b) (pre ++ m) =
      (findTruthyIndex b m).map (· + pre.length) := by
  induction pre with
  | nil =>
    simp only [List.length_nil, Nat.zero_add, List.nil_append]
    cases h : findTruthyIndex b m <;> simp [h]
  | cons c pre ih =>
    have hc : truthy c = false := hpre c (by simp)
    have hpre₁ : ∀ x ∈ pre, truthy x = false := fun x hx => hpre x (by simp [hx])
    simp only [List.length_cons, List.cons_append]
    rw [show pre.length + 1 + b = pre.length + b + 1 by omega]
    rw [findTruthyIndex, hc]
    rw [ih hpre₁]
    cases findTruthyIndex b m
    · simp
    · simp
      omega

theorem getD_append_len {α : Type} (l₁ l₂ : List α) (n : Nat) (d : α) :
    (l₁ ++ l₂).getD (l₁.length + n) d = l₂.getD n d := by
  induction l₁ with
  | nil => simp
  | cons a l₁ ih =>
    simp only [List.cons_append, List.length_cons]
    rw [show l₁.length + 1 + n = l₁.length + n + 1 by omega]
    simpa using ih

theorem drop_append_len {α : Type} (l₁ l₂ : List α) (n : Nat) :
    (l₁ ++ l₂).drop (l₁.length + n) = l₂.drop n := by
  induction l₁ with
  | nil => simp
  | cons a l₁ ih =>
    simp only [List.cons_append, List.length_cons]
    rw [show l₁.length + 1 + n = l₁.length + n + 1 by omega]
    simp only [List.drop_succ_cons]
    exact ih

theorem endpointsIndexList_cons (e : Endpoint) (tl : List Endpoint)
    (htl : tl ≠ []) :
    endpointsIndexList (e :: tl) =
      (some e :: List.replicate e.numUriParams none) ++ endpointsIndexList tl := by
  cases tl with
  | nil => cases htl rfl
  | cons b tl => rfl

theorem endpointsIndexList_ne_nil (es : List Endpoint) (h : es ≠ []) :
    endpointsIndexList es ≠ [] := by
  cases es with
  | nil => cases h rfl
  | cons e tl =>
    cases tl with
    | nil => simp [endpointsIndexList]
    | cons b tl => simp [endpointsIndexList]

/-- Core behaviour of the index scan and slice for a matched master pattern
on a non-empty (hence truthy) stripped path: the scan lands exactly on the
selected branch's own offset, the index there holds the selected endpoint,
and the slice returns the branch's capture groups. -/
theorem lookup_core (es : List Endpoint) (rest : String) (hrest : rest ≠ "")
    (hwf : ∀ e ∈ es, EndpointWf e) :
    ∀ sel gs e, findFirstBranch es rest = some (sel, gs) →
      es.get? sel = some e →
      findTruthyIndex (endpointsIndexList es).length (matchTail es sel rest gs) =
          some (branchOffset es sel)
      ∧ (endpointsIndexList es).getD (branchOffset es sel) none = some e
      ∧ ((matchTail es sel rest gs).drop (branchOffset es sel + 1)).take
            e.numUriParams = gs := by
  induction es with
  | nil => intro sel gs e h _; simp [findFirstBranch] at h
  | cons e₀ tl ih =>
    intro sel gs e hfind hget
    cases h₀ : e₀.execGroups rest with
    | some gs₀ =>
      simp only [findFirstBranch, h₀, Option.some.injEq, Prod.mk.injEq] at hfind
      obtain ⟨hsel, hgs⟩ := hfind
      subst hsel
      subst hgs
      have hhd : some e₀ = some e := hget
      obtain rfl : e₀ = e := by injection hhd
      obtain ⟨L, hL⟩ : ∃ L, (endpointsIndexList (e₀ :: tl)).length = L + 1 := by
        have := endpointsIndexList_ne_nil (e₀ :: tl) (by simp)
        cases hE : endpointsIndexList (e₀ :: tl) with
        | nil => cases this hE
        | cons a l => exact ⟨l.length, by simp [hE]⟩
      have htr : truthy (some rest) = true := by
        simp [truthy, hrest]
      refine ⟨?_, ?_, ?_⟩
      · rw [hL]
        simp [matchTail, findTruthyIndex, htr, branchOffset]
      · cases tl with
        | nil => simp [endpointsIndexList, branchOffset]
        | cons b tl => simp [endpointsIndexList, branchOffset]
      · have hlen : gs₀.length = e₀.numUriParams :=
          hwf e₀ (by simp) rest gs₀ h₀
        simp only [matchTail, branchOffset, List.cons_append, Nat.zero_add,
          List.drop_succ_cons, List.drop_zero]
        rw [← hlen, List.take_left]
    | none =>
      simp only [findFirstBranch, h₀, Option.map_eq_some'] at hfind
      obtain ⟨⟨sel₁, gs₁⟩, hp, hq⟩ := hfind
      simp only [Prod.mk.injEq] at hq
      obtain ⟨hsel, hgs⟩ := hq
      subst hsel
      subst hgs
      have htl : tl ≠ [] := by
        intro h
        subst h
        simp [findFirstBranch] at hp
      have hget₁ : tl.get? sel₁ = some e := hget
      obtain ⟨h₁, h₂, h₃⟩ := ih (fun x hx => hwf x (by simp [hx])) sel₁ gs₁ e hp hget₁
      have hblock : ∀ c ∈ (none :: List.replicate e₀.numUriParams
          (none : Option String)), truthy c = false := by
        intro c hc
        rcases List.mem_cons.mp hc with h | h
        · simp [h, truthy]
        · simp [List.eq_of_mem_replicate h, truthy]
      refine ⟨?_, ?_, ?_⟩
      · rw [endpointsIndexList_cons e₀ tl htl]
        simp only [matchTail, List.length_append, List.length_cons,
          List.length_replicate]
        rw [show (e₀.numUriParams + 1) + (endpointsIndexList tl).length =
            (none :: List.replicate e₀.numUriParams
              (none : Option String)).length + (endpointsIndexList tl).length by
          simp]
        rw [findTruthyIndex_append_falsy _ hblock, h₁]
        simp only [Option.map_some', Option.some.injEq, branchOffset,
          List.length_cons, List.length_replicate]
        omega
      · rw [endpointsIndexList_cons e₀ tl htl]
        rw [show branchOffset (e₀ :: tl) (sel₁ + 1) =
            (some e₀ :: List.replicate e₀.numUriParams
              (none : Option Endpoint)).length + branchOffset tl sel₁ by
          simp only [branchOffset, List.length_cons, List.length_replicate]]
        rw [getD_append_len]
        exact h₂
      · rw [show branchOffset (e₀ :: tl) (sel₁ + 1) + 1 =
            (none :: List.replicate e₀.numUriParams
              (none : Option String)).length + (branchOffset tl sel₁ + 1) by
          simp only [branchOffset, List.length_cons, List.length_replicate]
          omega]
        simp only [matchTail]
        rw [drop_append_len]
        exact h₃

/-- C1 (amended): for a non-empty endpoint set, a prefixed path whose
remainder after stripping the prefix is non-empty, and the selected (first
matching) endpoint, lookup returns that endpoint's handler together with
exactly its numUriParams parameter cells, sliced from the combined match
with absent optional groups preserved; a remainder matching no endpoint's
pattern returns null.  The non-empty-remainder condition is what the
counterexample forces: an endpoint pattern matching the empty remainder
makes the enclosing group's value the empty string, which is falsy in the
index scan, so lookup throws instead (see the counterexample). -/
theorem routerLookup_c1_amended (pfx rest : String) (es : List Endpoint)
    (hwf : ∀ e ∈ es, EndpointWf e) (hne : es ≠ []) (hrest : rest ≠ "") :
    (∀ sel gs e, findFirstBranch es rest = some (sel, gs) →
      es.get? sel = some e →
      emLookup pfx es (pfx ++ rest) = .found ⟨e.handler, rest, gs⟩
      ∧ gs.length = e.numUriParams)
    ∧ (findFirstBranch es rest = none →
      emLookup pfx es (pfx ++ rest) = .noMatch) := by
  have hpre : strStartsWith pfx (pfx ++ rest) = true :=
    strStartsWith_self_append pfx rest
  have hdrop : strDropN (pfx ++ rest) (strLen pfx) = rest :=
    strDropN_self_append pfx rest
  have hemp : es.isEmpty = false := by
    cases es with
    | nil => cases hne rfl
    | cons a l => rfl
  constructor
  · intro sel gs e hfind hget
    obtain ⟨h₁, h₂, h₃⟩ := lookup_core es rest hrest hwf sel gs e hfind hget
    have hlen : gs.length = e.numUriParams := by
      obtain ⟨e₁, hge, hx⟩ := findFirstBranch_spec es rest sel gs hfind
      rw [hget] at hge
      have he₁ : e = e₁ := by injection hge
      subst he₁
      exact hwf e (List.get?_mem hget) rest gs hx
    refine ⟨?_, hlen⟩
    rw [emLookup]
    simp only [hpre, if_true, hdrop, hemp, Bool.false_eq_true, if_false,
      hfind, h₁, h₂, h₃]
  · intro hnone
    rw [emLookup]
    simp only [hpre, if_true, hdrop, hemp, Bool.false_eq_true, if_false, hnone]

/-- First endpoint: a pattern with one capture group that matches nothing at
all (so the alternation must move past it). -/
def epNone : Endpoint := ⟨1, 1, fun _ => none⟩

/-- Second endpoint: pattern with two capture groups, the trailing one
optional and absent, matching exactly the path /w/5. -/
def epW : Endpoint :=
  ⟨2, 2, fun s => if s = "/w/5" then some [some "5", none] else none⟩

/-- Concrete run of routerLookup_c1_amended: with prefix /api, endpoints
[epNone, epW] and path /api/w/5, lookup selects branch 1 and returns handler
2 with exactly two parameter cells, the absent optional one preserved; the
path /api/nope matches no endpoint and returns null. -/
theorem routerLookup_c1_amended_witness :
    (emLookup "/api" [epNone, epW] ("/api" ++ "/w/5") =
      .found ⟨2, "/w/5", [some "5", none]⟩)
    ∧ emLookup "/api" [epNone, epW] ("/api" ++ "/nope") = .noMatch := by
  have hwf : ∀ e ∈ [epNone, epW], EndpointWf e := by
    intro e he
    simp only [List.mem_cons, List.not_mem_nil, or_false] at he
    rcases he with h | h
    · subst h
      intro s gs hg
      simp [epNone] at hg
    · subst h
      intro s gs hg
      simp only [epW] at hg
      split at hg
      · injection hg with h₁
        subst h₁
        rfl
      · cases hg
  constructor
  · exact ((routerLookup_c1_amended "/api" "/w/5" [epNone, epW] hwf
      (by simp) (by decide)).1 1 [some "5", none] epW (by decide) rfl).1
  · exact (routerLookup_c1_amended "/api" "/nope" [epNone, epW] hwf
      (by simp) (by decide)).2 (by decide)

/-- Endpoint whose pattern (for example the empty pattern) matches the empty
remainder with no capture groups. -/
def epEps : Endpoint := ⟨0, 7, fun s => if s = "" then some [] else none⟩

/-- C1 (counterexample to the claim as stated): with prefix /api and the
single endpoint epEps whose pattern matches the empty remainder, the path
/api matches endpoint 0's pattern, yet lookup neither returns that
endpoint's handler nor null: the enclosing group's captured value is the
empty string, falsy in the findIndex scan, so the scan returns -1 and
reading .numUriParams on the undefined index entry throws a TypeError. -/
theorem routerLookup_c1_counterexample :
    epEps.execGroups "" = some []
    ∧ emLookup "/api" [epEps] "/api" = .typeError := by
  constructor
  · rfl
  · decide

/-- C10: with an empty endpoint set the master pattern is prefix-only (or
^(?:)$ without a prefix) and matches exactly the bare prefix; on that match
the per-endpoint scan over the empty index finds nothing, the index access
at -1 yields undefined, and lookup throws a TypeError instead of returning a
result or null — so at least one registered endpoint is a necessary
precondition for lookup to be a total RouteMatch-or-null function.  Any
longer path matches nothing and returns null. -/
theorem routerEmpty_c10 (pfx : String) :
    emLookup pfx [] pfx = .typeError
    ∧ ∀ rest : String, rest ≠ "" → emLookup pfx [] (pfx ++ rest) = .noMatch := by
  constructor
  · have h₁ : strStartsWith pfx pfx = true := by
      have := strStartsWith_self_append pfx ""
      rwa [str_append_empty] at this
    have h₂ : strDropN pfx (strLen pfx) = "" := by
      have := strDropN_self_append pfx ""
      rwa [str_append_empty] at this
    rw [emLookup]
    simp [h₁, h₂]
  · intro rest hrest
    rw [emLookup]
    simp [strStartsWith_self_append, strDropN_self_append, hrest]

/-- Concrete run of routerEmpty_c10 with prefix /api: the bare prefix throws,
a longer path yields null. -/
theorem routerEmpty_c10_witness :
    emLookup "/api" [] "/api" = .typeError
    ∧ emLookup "/api" [] ("/api" ++ "/x") = .noMatch :=
  ⟨(routerEmpty_c10 "/api").1, (routerEmpty_c10 "/api").2 "/x" (by decide)⟩

/-! ### Header value handlers and response headers

Embeds util.headerCase (src/lib/util.js), DefaultHeaderValueHandler
(src/lib/header-value-handler/default-header-value-handler.js),
MethodsListHeaderValueHandler (src/unnamed/part_008),
HeadersListHeaderValueHandler (src/unnamed/part_009), the handler registry
set up in the Application constructor (src/unnamed/part_013, lines
125-134), and EndpointCallResponse.header
(src/lib/endpoint-call-response.js, lines 42-59).  Handler values are
already strings at the modelled call sites (numbers pass through
String(v)). -/

/-- JS word character, for the word boundary of /\b[a-z]/g. -/
def isWordChar (c : Char) : Bool := c.isAlphanum || c = '_'

/-- Characters of headerCase after toLowerCase: an ASCII lower-case letter
at a word boundary is upper-cased.  The Bool argument records whether the
previous character was a word character. -/
def headerCaseChars : Bool → List Char → List Char
  | _, [] => []
  | prevWord, c :: cs =>
    (if !prevWord && c.isLower then c.toUpper else c) ::
      headerCaseChars (isWordChar c) cs

/-- util.headerCase: name.toLowerCase().replace(/\b[a-z]/g, toUpperCase). -/
def headerCase (s : String) : String :=
  ⟨headerCaseChars false (s.data.map Char.toLower)⟩

/-- s.toUpperCase() at the character level. -/
def toUpperStr (s : String) : String := ⟨s.data.map Char.toUpper⟩

/-- Whitespace as matched by \s and trimmed by String.prototype.trim on the
header values in play. -/
def isWsChar (c : Char) : Bool := c = ' ' || c = '\t' || c = '\n' || c = '\r'

/-- Leading and trailing whitespace removed. -/
def trimChars (l : List Char) : List Char :=
  ((l.dropWhile isWsChar).reverse.dropWhile isWsChar).reverse

/-- Split on commas, accumulating the current (reversed) piece. -/
def splitCommaChars : List Char → List Char → List (List Char)
  | [], acc => [acc.reverse]
  | c :: cs, acc =>
    if c = ',' then acc.reverse :: splitCommaChars cs []
    else splitCommaChars cs (c :: acc)

/-- String(v).trim().split(/\s*,\s*/): the list handlers' element parsing —
trim the whole value, split on commas, strip the whitespace around each
comma. -/
def splitCommaWs (s : String) : List String :=
  (splitCommaChars (trimChars s.data) []).map (fun cs => String.mk (trimChars cs))

/-- State of one header value handler: the default handler's current string,
or a list handler's de-duplicated insertion-ordered element set. -/
inductive HVal where
  | dflt (s : String)
  | nameList (xs : List String)
  | methodList (xs : List String)
deriving DecidableEq, Repr

/-- Set-like insertion used by both list handlers. -/
def addDedup (xs : List String) (x : String) : List String :=
  if x ∈ xs then xs else xs ++ [x]

/-- Handler registry of the Application constructor: Vary,
Access-Control-Allow-Headers and Access-Control-Expose-Headers get the
header-name-list handler, Allow and Access-Control-Allow-Methods the
method-list handler, every other name the default handler (with its empty
initial value). -/
def newHVal (name : String) : HVal :=
  if name = "vary" ∨ name = "access-control-allow-headers"
      ∨ name = "access-control-expose-headers" then .nameList []
  else if name = "allow" ∨ name = "access-control-allow-methods" then
    .methodList []
  else .dflt ""

/-- Setting a value on a handler: the default handler replaces, the
name-list handler adds the headerCase-normalized comma-separated elements,
the method-list handler adds the upper-cased ones. -/
def hvalUpdate : HVal → String → HVal
  | .dflt _, v => .dflt v
  | .nameList xs, v =>
    .nameList (((splitCommaWs v).map headerCase).foldl addDedup xs)
  | .methodList xs, v =>
    .methodList (((splitCommaWs v).map toUpperStr).foldl addDedup xs)

/-- Array.from(set).join(', '). -/
def joinCommaSp : List String → String
  | [] => ""
  | [x] => x
  | x :: xs => x ++ ", " ++ joinCommaSp xs

/-- Reading a handler's value: lists render comma-joined. -/
def hvalRender : HVal → String
  | .dflt s => s
  | .nameList xs => joinCommaSp xs
  | .methodList xs => joinCommaSp xs

/-- EndpointCallResponse.header for a lower-case name: null or undefined
removes the header, otherwise the value is combined into the existing or a
freshly registered handler. -/
def setHeader (m : List (String × HVal)) (name : String) (v : Option String) :
    List (String × HVal) :=
  match v with
  | none => assocDelete m name
  | some s =>
    match assocFind m name with
    | some hv => assocSet m name (hvalUpdate hv s)
    | none => m ++ [(name, hvalUpdate (newHVal name) s)]

/-- Rendered value of a response header, by lower-case name. -/
def getHeader (m : List (String × HVal)) (name : String) : Option String :=
  (assocFind m name).map hvalRender

/-- One response entity as built by EndpointCallResponse.entity (lines
84-106): the serialized data bytes and the per-entity headers ('content-type'
always, 'content-disposition' only when a filename was supplied). -/
structure HttpEntity where
  dataStr : String
  headers : List (String × String)
deriving DecidableEq, Repr

/-- An EndpointCallResponse: status code, the headers Map, and the lazily
created _entities array (none while no entity was ever added, matching the
undefined field). -/
structure Resp where
  statusCode : Nat
  headers : List (String × HVal)
  entities : Option (List HttpEntity)
deriving DecidableEq, Repr

/-- new EndpointCallResponse(app, statusCode). -/
def mkResp (statusCode : Nat) : Resp := ⟨statusCode, [], none⟩

/-- response.header(name, value) with a lower-case name. -/
def Resp.header (r : Resp) (name : String) (v : Option String) : Resp :=
  { r with headers := setHeader r.headers name v }

/-- response.entity(data, contentType, filename): contentType defaults to
application/json; a content-disposition header is created only when a
filename is given, inline for the first entity and attachment for later
ones. -/
def Resp.addEntity (r : Resp) (data : String)
    (contentType filename : Option String) : Resp :=
  let cur := r.entities.getD []
  let hs := ("content-type", contentType.getD "application/json") ::
    (match filename with
     | some fn => [("content-disposition",
        (if cur.length > 0 then "attachment" else "inline")
          ++ "; filename=\"" ++ fn ++ "\"")]
     | none => [])
  { r with entities := some (cur ++ [⟨data, hs⟩]) }

/-! ### CORS classification

Embeds the origin handling of EndpointCall._sendResponse
(src/unnamed/part_013, lines 928-964; the same chain appears in
Application._sendResponse of src/unnamed/part_011, lines 755-788) and of
EndpointCall._sendOptionsResponse (part_013, lines 841-911; part_011, lines
662-729).  A configured origin pattern is modelled by its .test predicate.
The matchIsPublic argument stands for "an endpoint was matched and its
handler's isPublic(resourceUri, uriParams) returned true" (the normal-path
chain also guards on endpointMatch being non-null).  The
Access-Control-Expose-Headers block that runs for allowed origins is not
modelled: it touches no header involved in the claims. -/

/-- The two configured origin patterns. -/
structure CorsConfig where
  securePat : Option (String → Bool)
  publicPat : Option (String → Bool)

/-- Application constructor, lines 168-177: X2_ALLOWED_PUBLIC_ORIGINS is
read only when X2_ALLOWED_SECURE_ORIGINS is configured. -/
def mkCorsConfig (secure pub : Option (String → Bool)) : CorsConfig :=
  match secure with
  | none => ⟨none, none⟩
  | some s => ⟨some s, pub⟩

/-- First condition of the chain: a public pattern is configured, the
matched endpoint is public, and the origin matches the public pattern. -/
def publicApplies (cfg : CorsConfig) (matchIsPublic : Bool) (origin : String) :
    Bool :=
  match cfg.publicPat with
  | some p => matchIsPublic && p origin
  | none => false

/-- The four-way origin classification shared by both code sites. -/
inductive OriginClass where
  | specific
  | anyOrigin
  | specificCred
  | disallowed
deriving DecidableEq, Repr

/-- The if/else-if chain: public-for-public first, then the
no-secure-pattern catch-all, then the secure match, else disallowed. -/
def classifyOrigin (cfg : CorsConfig) (matchIsPublic : Bool) (origin : String) :
    OriginClass :=
  if publicApplies cfg matchIsPublic origin then .specific
  else
    match cfg.securePat with
    | none => .anyOrigin
    | some s => if s origin then .specificCred else .disallowed

/-- CORS section of _sendResponse: Vary: Origin always; with an Origin
header, the specific origin is allowed without credentials in the
public-for-public case, every origin as * without credentials when no secure
pattern is configured, the specific origin with credentials on a secure
match, and nothing at all otherwise — the response object is otherwise left
untouched and transmission proceeds normally. -/
def corsApply (cfg : CorsConfig) (matchIsPublic : Bool) (origin : Option String)
    (r : Resp) : Resp :=
  let r := r.header "vary" (some "Origin")
  match origin with
  | none => r
  | some o =>
    match classifyOrigin cfg matchIsPublic o with
    | .specific => r.header "access-control-allow-origin" (some o)
    | .anyOrigin => r.header "access-control-allow-origin" (some "*")
    | .specificCred =>
      (r.header "access-control-allow-origin" (some o)).header
        "access-control-allow-credentials" (some "true")
    | .disallowed => r

/-- EndpointCall._sendOptionsResponse (part_013, lines 841-911): a 200
response listing the allowed methods (GET advertising HEAD, plus OPTIONS),
with Content-Length 0 and Vary: Origin; when both an Origin and an
Access-Control-Request-Method header are present and the origin is not
disallowed, it allows the origin (* in the any case), adds credentials only
in the secure case, sets Access-Control-Max-Age to 20 days (1728000
seconds), sets the requested method on the header named
'Access-Control-Allow-Method' — the singular name that appears verbatim in
the source — and echoes Access-Control-Allow-Headers when
Access-Control-Request-Headers was sent. -/
def sendOptionsResponse (allowedMethods : List String) (cfg : CorsConfig)
    (matchIsPublic : Bool) (origin acrMethod acrHeaders : Option String) :
    Resp :=
  let r := mkResp 200
  let r := allowedMethods.foldl
    (fun r m => r.header "allow" (some (if m = "GET" then "GET, HEAD" else m))) r
  let r := r.header "allow" (some "OPTIONS")
  let r := r.header "content-length" (some "0")
  let r := r.header "vary" (some "Origin")
  match origin, acrMethod with
  | some o, some rm =>
    match classifyOrigin cfg matchIsPublic o with
    | .disallowed => r
    | cls =>
      let r := r.header "access-control-allow-origin"
        (some (if cls = .anyOrigin then "*" else o))
      let r := if cls = .specificCred then
          r.header "access-control-allow-credentials" (some "true")
        else r
      let r := r.header "access-control-max-age" (some "1728000")
      let r := r.header "access-control-allow-method" (some rm)
      match acrHeaders with
      | some rh => r.header "access-control-allow-headers" (some rh)
      | none => r
  | _, _ => r

/-! #### Helper lemmas for the headers map -/

theorem assocFind_assocSet_other {α : Type} (l : List (String × α))
    (k k' : String) (v : α) (h : k' ≠ k) :
    assocFind (assocSet l k v) k' = assocFind l k' := by
  induction l with
  | nil => simp [assocSet, assocFind, Ne.symm h]
  | cons p t ih =>
    obtain ⟨k₁, v₁⟩ := p
    by_cases hk : k₁ = k
    · subst hk
      simp [assocSet, assocFind, Ne.symm h]
    · by_cases hk' : k₁ = k'
      · subst hk'
        simp [assocSet, assocFind, hk]
      · simp [assocSet, assocFind, hk, hk', ih]

theorem assocFind_append_single_other {α : Type} (l : List (String × α))
    (k k' : String) (v : α) (h : k' ≠ k) :
    assocFind (l ++ [(k, v)]) k' = assocFind l k' := by
  induction l with
  | nil => simp [assocFind, Ne.symm h]
  | cons p t ih =>
    obtain ⟨k₁, v₁⟩ := p
    by_cases hk' : k₁ = k' <;> simp [assocFind, hk', ih]

theorem assocFind_append_single_self {α : Type} (l : List (String × α))
    (k : String) (v : α) (hf : assocFind l k = none) :
    assocFind (l ++ [(k, v)]) k = some v := by
  induction l with
  | nil => simp [assocFind]
  | cons p t ih =>
    obtain ⟨k₁, v₁⟩ := p
    by_cases hk : k₁ = k
    · simp [assocFind, hk] at hf
    · simp only [List.cons_append, assocFind, hk, if_false] at hf ⊢
      exact ih hf

theorem getHeader_eq_none_iff (m : List (String × HVal)) (n : String) :
    getHeader m n = none ↔ assocFind m n = none := by
  unfold getHeader
  exact Option.map_eq_none'

theorem getHeader_header_some_other (m : List (String × HVal)) (n n' s : String)
    (h : n' ≠ n) :
    getHeader (setHeader m n (some s)) n' = getHeader m n' := by
  unfold setHeader getHeader
  cases hf : assocFind m n with
  | some hv => rw [assocFind_assocSet_other m n n' _ h]
  | none => rw [assocFind_append_single_other m n n' _ h]

theorem getHeader_header_some_fresh (m : List (String × HVal)) (n s : String)
    (hf : assocFind m n = none) :
    getHeader (setHeader m n (some s)) n =
      some (hvalRender (hvalUpdate (newHVal n) s)) := by
  simp only [setHeader, getHeader, hf]
  rw [assocFind_append_single_self m n _ hf]
  rfl

/-- C3 (amended): with a secure pattern configured and an Origin header
present, an origin matching neither the secure pattern nor the
public-pattern-for-public-endpoint case gets no Access-Control-Allow-Origin
header while the response keeps its status and entities; an origin matching
the secure pattern, provided the public-for-public case does not apply, gets
Access-Control-Allow-Origin set to that origin and
Access-Control-Allow-Credentials: true; when the public-for-public case does
apply it takes precedence and gets the specific origin without the
credentials header (the change the counterexample forces); with no secure
pattern configured, Access-Control-Allow-Origin is * with no credentials
header. -/
theorem corsHeaders_c3_amended (secure : String → Bool)
    (pubPat : Option (String → Bool)) (isPub : Bool) (o : String) (r : Resp)
    (hacao : getHeader r.headers "access-control-allow-origin" = none)
    (hacac : getHeader r.headers "access-control-allow-credentials" = none) :
    (publicApplies (mkCorsConfig (some secure) pubPat) isPub o = false →
      secure o = false →
      getHeader (corsApply (mkCorsConfig (some secure) pubPat) isPub (some o)
          r).headers "access-control-allow-origin" = none
      ∧ getHeader (corsApply (mkCorsConfig (some secure) pubPat) isPub (some o)
          r).headers "access-control-allow-credentials" = none
      ∧ (corsApply (mkCorsConfig (some secure) pubPat) isPub (some o)
          r).statusCode = r.statusCode
      ∧ (corsApply (mkCorsConfig (some secure) pubPat) isPub (some o)
          r).entities = r.entities)
    ∧ (publicApplies (mkCorsConfig (some secure) pubPat) isPub o = false →
      secure o = true →
      getHeader (corsApply (mkCorsConfig (some secure) pubPat) isPub (some o)
          r).headers "access-control-allow-origin" = some o
      ∧ getHeader (corsApply (mkCorsConfig (some secure) pubPat) isPub (some o)
          r).headers "access-control-allow-credentials" = some "true")
    ∧ (publicApplies (mkCorsConfig (some secure) pubPat) isPub o = true →
      getHeader (corsApply (mkCorsConfig (some secure) pubPat) isPub (some o)
          r).headers "access-control-allow-origin" = some o
      ∧ getHeader (corsApply (mkCorsConfig (some secure) pubPat) isPub (some o)
          r).headers "access-control-allow-credentials" = none)
    ∧ (getHeader (corsApply (mkCorsConfig none pubPat) isPub (some o)
          r).headers "access-control-allow-origin" = some "*"
      ∧ getHeader (corsApply (mkCorsConfig none pubPat) isPub (some o)
          r).headers "access-control-allow-credentials" = none) := by
  have hd1 : ("access-control-allow-origin" : String) ≠ "vary" := by decide
  have hd2 : ("access-control-allow-credentials" : String) ≠ "vary" := by decide
  have hd3 : ("access-control-allow-credentials" : String)
      ≠ "access-control-allow-origin" := by decide
  have hd4 : ("access-control-allow-origin" : String)
      ≠ "access-control-allow-credentials" := by decide
  have hvao : getHeader (setHeader r.headers "vary" (some "Origin"))
      "access-control-allow-origin" = none := by
    rw [getHeader_header_some_other _ _ _ _ hd1]
    exact hacao
  have hvac : getHeader (setHeader r.headers "vary" (some "Origin"))
      "access-control-allow-credentials" = none := by
    rw [getHeader_header_some_other _ _ _ _ hd2]
    exact hacac
  have hrao : hvalRender (hvalUpdate (newHVal "access-control-allow-origin") o)
      = o := rfl
  have hrac : hvalRender (hvalUpdate (newHVal "access-control-allow-credentials")
      "true") = "true" := rfl
  have hrstar : hvalRender (hvalUpdate (newHVal "access-control-allow-origin")
      "*") = "*" := rfl
  refine ⟨?_, ?_, ?_, ?_⟩
  · intro hpub hsec
    simp only [mkCorsConfig] at hpub
    have hcls : classifyOrigin (mkCorsConfig (some secure) pubPat) isPub o =
        .disallowed := by
      simp [classifyOrigin, mkCorsConfig, hpub, hsec]
    simp only [corsApply, hcls, Resp.header]
    refine ⟨hvao, hvac, by simp, by simp⟩
  · intro hpub hsec
    simp only [mkCorsConfig] at hpub
    have hcls : classifyOrigin (mkCorsConfig (some secure) pubPat) isPub o =
        .specificCred := by
      simp [classifyOrigin, mkCorsConfig, hpub, hsec]
    simp only [corsApply, hcls, Resp.header]
    constructor
    · rw [getHeader_header_some_other _ _ _ _ hd4,
        getHeader_header_some_fresh _ _ _ ((getHeader_eq_none_iff _ _).mp hvao),
        hrao]
    · rw [getHeader_header_some_fresh _ _ _ ?_, hrac]
      rw [← getHeader_eq_none_iff]
      rw [getHeader_header_some_other _ _ _ _ hd3]
      exact hvac
  · intro hpub
    simp only [mkCorsConfig] at hpub
    have hcls : classifyOrigin (mkCorsConfig (some secure) pubPat) isPub o =
        .specific := by
      simp [classifyOrigin, mkCorsConfig, hpub]
    simp only [corsApply, hcls, Resp.header]
    constructor
    · rw [getHeader_header_some_fresh _ _ _ ((getHeader_eq_none_iff _ _).mp hvao),
        hrao]
    · rw [getHeader_header_some_other _ _ _ _ hd3]
      exact hvac
  · have hcls : classifyOrigin (mkCorsConfig none pubPat) isPub o =
        .anyOrigin := by
      simp [classifyOrigin, publicApplies, mkCorsConfig]
    simp only [corsApply, hcls, Resp.header]
    constructor
    · rw [getHeader_header_some_fresh _ _ _ ((getHeader_eq_none_iff _ _).mp hvao),
        hrstar]
    · rw [getHeader_header_some_other _ _ _ _ hd3]
      exact hvac

/-- Secure pattern used in the concrete CORS runs: matches exactly
https://app.example. -/
def secPatW : String → Bool := fun o => o = "https://app.example"

/-- Public pattern used in the concrete CORS runs: matches every origin. -/
def pubPatW : String → Bool := fun _ => true

/-- C3 (counterexample to the claim as stated): the origin
https://app.example matches the secure pattern, but because a public pattern
is configured, the endpoint is public, and the public pattern also matches,
the first branch of the chain wins: Access-Control-Allow-Origin is set to
the origin, yet Access-Control-Allow-Credentials is NOT set — contradicting
the claim that a secure-pattern-matching origin always receives both
headers. -/
theorem corsHeaders_c3_counterexample :
    secPatW "https://app.example" = true
    ∧ getHeader ((corsApply (mkCorsConfig (some secPatW) (some pubPatW)) true
        (some "https://app.example") (mkResp 200)).headers)
        "access-control-allow-origin" = some "https://app.example"
    ∧ getHeader ((corsApply (mkCorsConfig (some secPatW) (some pubPatW)) true
        (some "https://app.example") (mkResp 200)).headers)
        "access-control-allow-credentials" = none := by decide

/-- Concrete runs of corsHeaders_c3_amended: against the secure-restricted
configuration (no public pattern), https://evil.example gets no
Access-Control-Allow-Origin while status and entities are untouched, and
https://app.example gets both the specific origin and the credentials
header. -/
theorem corsHeaders_c3_amended_witness :
    (getHeader ((corsApply (mkCorsConfig (some secPatW) none) false
        (some "https://evil.example") (mkResp 200)).headers)
        "access-control-allow-origin" = none
      ∧ (corsApply (mkCorsConfig (some secPatW) none) false
        (some "https://evil.example") (mkResp 200)).statusCode = 200)
    ∧ (getHeader ((corsApply (mkCorsConfig (some secPatW) none) false
        (some "https://app.example") (mkResp 200)).headers)
        "access-control-allow-origin" = some "https://app.example"
      ∧ getHeader ((corsApply (mkCorsConfig (some secPatW) none) false
        (some "https://app.example") (mkResp 200)).headers)
        "access-control-allow-credentials" = some "true") := by
  constructor
  · have h := (corsHeaders_c3_amended secPatW none false "https://evil.example"
      (mkResp 200) rfl rfl).1 (by decide) (by decide)
    exact ⟨h.1, h.2.2.1⟩
  · exact (corsHeaders_c3_amended secPatW none false "https://app.example"
      (mkResp 200) rfl rfl).2.1 (by decide) (by decide)

/-- C4 (code evaluated at the failing input): a preflight (OPTIONS with
Origin and Access-Control-Request-Method: POST) against an app with no
secure pattern (all origins allowed) answers with
Access-Control-Allow-Origin *, echoes the requested headers through
Access-Control-Allow-Headers, and sets Access-Control-Max-Age — but no
Access-Control-Allow-Methods header is ever set: the source writes the
requested method to a header named Access-Control-Allow-Method (singular),
even though the application registers its method-list handler for the
plural name. -/
theorem corsPreflight_c4_eval :
    (getHeader (sendOptionsResponse ["GET"] (mkCorsConfig none none) false
        (some "https://a.example") (some "POST")
        (some "content-type, x-token")).headers
      "access-control-allow-methods" = none)
    ∧ (getHeader (sendOptionsResponse ["GET"] (mkCorsConfig none none) false
        (some "https://a.example") (some "POST")
        (some "content-type, x-token")).headers
      "access-control-allow-method" = some "POST")
    ∧ (getHeader (sendOptionsResponse ["GET"] (mkCorsConfig none none) false
        (some "https://a.example") (some "POST")
        (some "content-type, x-token")).headers
      "access-control-allow-headers" = some "Content-Type, X-Token")
    ∧ (getHeader (sendOptionsResponse ["GET"] (mkCorsConfig none none) false
        (some "https://a.example") (some "POST")
        (some "content-type, x-token")).headers
      "access-control-max-age" = some "1728000")
    ∧ (getHeader (sendOptionsResponse ["GET"] (mkCorsConfig none none) false
        (some "https://a.example") (some "POST")
        (some "content-type, x-token")).headers
      "access-control-allow-origin" = some "*")
    ∧ (getHeader (sendOptionsResponse ["GET"] (mkCorsConfig none none) false
        (some "https://a.example") (some "POST")
        (some "content-type, x-token")).headers
      "allow" = some "GET, HEAD, OPTIONS") := by decide

/-! ### Handler result mapping and response transmission

Embeds EndpointCall._process3 (src/unnamed/part_013, lines 792-815), the
rejection path of the handler promise (lines 774-778 routing to
_sendInternalServerErrorResponse, lines 825-834), and the start of
_sendResponse where the transmitted entities are read through the
EndpointCallResponse.entities getter (src/lib/endpoint-call-response.js,
lines 167-170).  That getter evaluates Array.from(this._entities) even when
no entity was ever added and _entities is still undefined, which throws a
TypeError; the try/catch of _process3 then routes to
_sendInternalServerErrorResponse, whose 500 response carries an error entity
and transmits normally.  Entity data is modelled by its serialized string. -/

/-- Outcome of the handler promise: rejection, resolution to null, to a
plain value, or to an explicit EndpointCallResponse. -/
inductive HandlerOutcome where
  | rejected
  | resolvedNull
  | plain (v : String)
  | explicitResp (r : Resp)
deriving DecidableEq, Repr

/-- _sendInternalServerErrorResponse: a 500 response with the X2-500 error
entity (the error itself is only logged server-side). -/
def internalServerErrorResp : Resp :=
  (mkResp 500).addEntity "X2-500" none none

/-- The response object _process3 builds from the handler result (and the
one the rejection handler builds): an explicit response is used verbatim,
null becomes an entity-less 204, any other value becomes a 200 with that
value as its sole entity. -/
def process3Resp : HandlerOutcome → Resp
  | .rejected => internalServerErrorResp
  | .resolvedNull => mkResp 204
  | .plain v => (mkResp 200).addEntity v none none
  | .explicitResp r => r

/-- EndpointCallResponse.entities: Array.from(this._entities), a TypeError
(error) when _entities is still undefined. -/
def entitiesOf (r : Resp) : Except Unit (List HttpEntity) :=
  match r.entities with
  | some es => .ok es
  | none => .error ()

/-- Status code actually transmitted for a handler outcome: _sendResponse
reads response.entities; if that getter throws, the catch in _process3
sends the 500 internal-server-error response instead (whose own entity list
is present, so it transmits). -/
def finalStatus (o : HandlerOutcome) : Nat :=
  match entitiesOf (process3Resp o) with
  | .ok _ => (process3Resp o).statusCode
  | .error _ => 500

/-- C7 (code evaluated at the failing input): a handler rejection is
transmitted as 500 and a plain value as 200 with that value as the sole
entity (content type defaulting to application/json); an explicit response
carrying an entity is transmitted verbatim; but a resolution to null, for
which _process3 does construct a 204 response, is actually transmitted as
500 — the entities getter calls Array.from on the still-undefined _entities
and throws, contradicting its own documentation that the value "may be
undefined". -/
theorem handlerOutcome_c7_eval :
    finalStatus .rejected = 500
    ∧ (process3Resp .resolvedNull).statusCode = 204
    ∧ finalStatus .resolvedNull = 500
    ∧ finalStatus (.plain "v") = 200
    ∧ (process3Resp (.plain "v")).entities =
        some [⟨"v", [("content-type", "application/json")]⟩]
    ∧ finalStatus (.explicitResp ((mkResp 201).addEntity "x" none none)) = 201 := by
  decide

/-! ### Multipart response assembly

Embeds the multipart branch of EndpointCall._sendResponse
(src/unnamed/part_013, lines 1018-1049) and, as the earlier draft the claim
also cites, of Application._sendResponse (src/unnamed/part_011, lines
844-878).  Entity data stands for its serialized bytes (a Buffer passes
through _getResponseEntityDataBuffer unchanged). -/

/-- Entity shape used by the part_011 draft, whose response class exposes
contentType and filename fields instead of a headers object. -/
structure HttpEntity11 where
  dataStr : String
  contentType : String
  filename : Option String
deriving DecidableEq, Repr

/-- Part sequence of the part_011 assembly: boundary line, Content-Type
header, a Content-Disposition header only when the entity has a filename
(inline for the first part, attachment for later ones), blank line, body,
CRLF. -/
def multipartParts11 (boundary : String) : Nat → List HttpEntity11 → String
  | _, [] => ""
  | ind, e :: tl =>
    "--" ++ boundary ++ "\r\n"
      ++ "Content-Type: " ++ e.contentType ++ "\r\n"
      ++ (match e.filename with
          | some fn => "Content-Disposition: "
              ++ (if ind > 0 then "attachment" else "inline")
              ++ "; filename=\"" ++ fn ++ "\"" ++ "\r\n"
          | none => "")
      ++ "\r\n" ++ e.dataStr ++ "\r\n"
      ++ multipartParts11 boundary (ind + 1) tl

/-- Multipart body produced by the part_011 draft: the parts followed by the
closing double-dash boundary. -/
def assembleMultipart11 (boundary : String) (es : List HttpEntity11) : String :=
  multipartParts11 boundary 0 es ++ "--" ++ boundary ++ "--"

/-- Multipart body of the part_013 pipeline (the one paired with
EndpointCallResponse): the per-part header accumulation reads and appends to
partHead, a variable that is never declared, so in strict mode the very
first part throws a ReferenceError before any byte of the body is
assembled; with no parts only the closing boundary buffer is produced. -/
def assembleMultipart13 (boundary : String) (es : List HttpEntity) :
    Except Unit String :=
  match es with
  | [] => .ok ("--" ++ boundary ++ "--")
  | _ :: _ => .error ()

/-- The response built through EndpointCallResponse.entity with the two
text/plain entities of the claim. -/
def respAB : Resp :=
  ((mkResp 200).addEntity "A" (some "text/plain") none).addEntity "B"
    (some "text/plain") none

/-- The part_011-draft entities for the same payload. -/
def entsAB11 : List HttpEntity11 :=
  [⟨"A", "text/plain", none⟩, ⟨"B", "text/plain", none⟩]

/-- The body the claim expects, with Content-Disposition: attachment on the
second part. -/
def claimedBodyC8 : String :=
  "--B1\r\nContent-Type: text/plain\r\n\r\nA\r\n--B1\r\nContent-Type: text/plain\r\nContent-Disposition: attachment\r\n\r\nB\r\n--B1--"

set_option maxRecDepth 8192 in
/-- C8 (counterexample to the claim as stated): for the two text/plain
entities and boundary B1, the part_013 assembly does not produce the claimed
body — it throws a ReferenceError (partHead is never declared) — and the
part_011 draft produces a body different from the claimed one. -/
theorem multipart_c8_counterexample :
    assembleMultipart13 "B1" (respAB.entities.getD []) = .error ()
    ∧ assembleMultipart11 "B1" entsAB11 ≠ claimedBodyC8 := by decide

set_option maxRecDepth 8192 in
/-- C8 (amended): the part_013 assembly throws a ReferenceError for any
response with parts, and the working part_011 draft assembles the parts with
their Content-Type headers and the closing double-dash boundary but without
any Content-Disposition header, since neither entity carries a filename and
a disposition is only emitted for entities that do (the first as inline, the
later ones as attachment). -/
theorem multipart_c8_amended :
    assembleMultipart13 "B1" (respAB.entities.getD []) = .error ()
    ∧ assembleMultipart11 "B1" entsAB11 =
      "--B1\r\nContent-Type: text/plain\r\n\r\nA\r\n--B1\r\nContent-Type: text/plain\r\n\r\nB\r\n--B1--"
    ∧ assembleMultipart11 "B1"
        [⟨"A", "text/plain", some "a.txt"⟩, ⟨"B", "text/plain", some "b.txt"⟩] =
      "--B1\r\nContent-Type: text/plain\r\nContent-Disposition: inline; filename=\"a.txt\"\r\n\r\nA\r\n--B1\r\nContent-Type: text/plain\r\nContent-Disposition: attachment; filename=\"b.txt\"\r\n\r\nB\r\n--B1--" := by
  decide

/-! ### Basic authentication and the authorization step

Embeds the registry-lookup continuation of BasicAuthenticator.authenticate
(src/unnamed/part_005, lines 129-155) and the pipeline steps around it:
EndpointCall.process routes an authenticate rejection to
_sendInternalServerErrorResponse (part_013, lines 607-617), and
EndpointCall._process1 maps a denied call to 401 with the challenge when
the actor is null and to 403 otherwise (lines 626-659).  Actors are modelled
by their ids; the registry lookup outcome is the settled state of the
actorRegistryCache promise. -/

/-- Resolution of the registry lookup: an actor (or null), or a rejection
carrying the error's code property. -/
inductive RegistryLookupOutcome where
  | ok (actor : Option String)
  | fail (code : String)
deriving DecidableEq, Repr

/-- The authenticator's resolved value: the actor (null when
unauthenticated) and, exactly then, the Basic challenge. -/
structure AuthResult where
  actor : Option String
  challenge : Option String
deriving DecidableEq, Repr

/-- The lookup continuation of BasicAuthenticator.authenticate: a rejection
whose code is server_error is re-thrown (rejecting the authentication
step), any other failure resolves softly with a null actor and the
challenge; a successful lookup resolves with the actor unless the
credentials check fails, in which case it also degrades to null-plus-
challenge. -/
def basicAuthContinue (challenge : String) (validCred : String → Bool) :
    RegistryLookupOutcome → Except String AuthResult
  | .ok none => .ok ⟨none, some challenge⟩
  | .ok (some a) =>
    if validCred a then .ok ⟨some a, none⟩ else .ok ⟨none, some challenge⟩
  | .fail code =>
    if code = "server_error" then .error code else .ok ⟨none, some challenge⟩

/-- What the pipeline does next after the authentication step settles. -/
inductive CallStep where
  | respond (statusCode : Nat) (wwwAuthenticate : Option String)
  | proceed
deriving DecidableEq, Repr

/-- EndpointCall.process and _process1 around authentication: a rejected
authentication is answered with 500; on resolution, a call the handler's
isAllowed denies is answered 401 with WWW-Authenticate set to the challenge
when the actor is null, and 403 when the actor is present; otherwise
processing proceeds. -/
def afterAuthenticate (isAllowed : Option String → Bool) :
    Except String AuthResult → CallStep
  | .error _ => .respond 500 none
  | .ok ar =>
    if isAllowed ar.actor then .proceed
    else
      match ar.actor with
      | none => .respond 401 ar.challenge
      | some _ => .respond 403 none

/-- C9: an actor-registry failure with code server_error rejects the
authentication step and yields the 500 response, while a failure with any
other code (invalid_request, access_denied, …) resolves the step with a
null actor and the Basic challenge, so a protected endpoint answers with the
ordinary 401 carrying WWW-Authenticate rather than a hard error. -/
theorem authRegistryFailure_c9 (challenge : String) (validCred : String → Bool)
    (isAllowed : Option String → Bool) (code : String)
    (hdeny : isAllowed none = false) :
    (afterAuthenticate isAllowed
        (basicAuthContinue challenge validCred (.fail "server_error")) =
      .respond 500 none)
    ∧ (code ≠ "server_error" →
      basicAuthContinue challenge validCred (.fail code) =
        .ok ⟨none, some challenge⟩
      ∧ afterAuthenticate isAllowed
          (basicAuthContinue challenge validCred (.fail code)) =
        .respond 401 (some challenge)) := by
  constructor
  · simp [basicAuthContinue, afterAuthenticate]
  · intro hcode
    have h : basicAuthContinue challenge validCred (.fail code) =
        .ok ⟨none, some challenge⟩ := by
      simp [basicAuthContinue, hcode]
    refine ⟨h, ?_⟩
    rw [h]
    simp [afterAuthenticate, hdeny]

/-- Concrete run of authRegistryFailure_c9: realm challenge, a registry that
rejects, and a handler that denies unauthenticated access — server_error
gives 500, access_denied gives the 401 challenge. -/
theorem authRegistryFailure_c9_witness :
    (afterAuthenticate (fun a => a.isSome)
        (basicAuthContinue "Basic realm=\"Web Service\"" (fun _ => true)
          (.fail "server_error")) =
      .respond 500 none)
    ∧ afterAuthenticate (fun a => a.isSome)
        (basicAuthContinue "Basic realm=\"Web Service\"" (fun _ => true)
          (.fail "access_denied")) =
      .respond 401 (some "Basic realm=\"Web Service\"") := by
  constructor
  · exact (authRegistryFailure_c9 "Basic realm=\"Web Service\"" (fun _ => true)
      (fun a => a.isSome) "access_denied" (by decide)).1
  · exact ((authRegistryFailure_c9 "Basic realm=\"Web Service\""
      (fun _ => true) (fun a => a.isSome) "access_denied" (by decide)).2
      (by decide)).2

end Thymes2
